import Mathlib

/-!
Shallow embedding of the quota availability engine of
`src/pretix/base/models/items.py` (pretix).

Embedded operations:
- `Quota._availability` : the pure calculator (capacity minus demand, in a
  fixed priority order with short-circuiting).
- `Quota.cache_is_hot`, `Quota.availability`, `Quota.rebuild_cache` : the
  persisted-verdict caching layer, including the call-scoped memo dict
  (`_cache`) and the `allow_cache` hot path.
- `Item.check_quotas`, `ItemVariation.check_quotas` : combining the verdicts
  of several quotas via a lexicographic minimum.

Demand counts (paid orders, pending orders, blocking vouchers, cart
positions, waiting-list entries) are database aggregates in the source; they
are modelled as a record of five natural numbers, and the embedding
additionally records which of the five count queries a call actually issued
(the source issues them lazily, one per subtraction step reached).
Timestamps are modelled as integers counting seconds, matching the use of
`total_seconds() < 120` in the source.
-/

namespace Pretix

/-- The five demand-count queries the engine can issue
(`count_paid_orders`, `count_pending_orders`, `count_blocking_vouchers`,
`count_in_cart`, `count_waiting_list_pending`). -/
inductive DemandQuery where
  | paid
  | pending
  | blocking
  | cart
  | waitlist
deriving DecidableEq, Repr

/-- A fixed snapshot of the five demand counts.  Each field is the value the
corresponding count query would return; the model assumes the counts do not
change during the calls under study. -/
structure Demand where
  paid : Nat
  pending : Nat
  blocking : Nat
  cart : Nat
  waitlist : Nat
deriving DecidableEq, Repr

/-- Source constant `Quota.AVAILABILITY_GONE = 0`. -/
def AVAILABILITY_GONE : Nat := 0
/-- Source constant `Quota.AVAILABILITY_ORDERED = 10`. -/
def AVAILABILITY_ORDERED : Nat := 10
/-- Source constant `Quota.AVAILABILITY_RESERVED = 20`. -/
def AVAILABILITY_RESERVED : Nat := 20
/-- Source constant `Quota.AVAILABILITY_OK = 100`. -/
def AVAILABILITY_OK : Nat := 100

/-- A verdict `(state, remaining)`: the second component is `none` exactly
where the source returns Python `None` (unlimited). -/
abbrev Verdict := Nat × Option Int

/-- The fields of one `Quota` row that the availability engine reads or
writes.  `size = none` models an unlimited quota (`size` NULL). -/
structure QuotaState where
  pk : Nat
  size : Option Nat
  cached_availability_state : Option Nat
  cached_availability_number : Option Int
  cached_availability_paid_orders : Option Nat
  cached_availability_time : Option Int
deriving DecidableEq, Repr

/-- The four persisted cached-verdict columns, as stored in the database.
`Quota.availability` only writes them through
`save(update_fields=[state, number, time, paid_orders])`. -/
structure CachedFields where
  state : Option Nat
  number : Option Int
  paid : Option Nat
  time : Option Int
deriving DecidableEq, Repr

/-- Projection of the four persisted cached-verdict columns out of an
in-memory instance. -/
def dbOf (q : QuotaState) : CachedFields :=
  { state := q.cached_availability_state
    number := q.cached_availability_number
    paid := q.cached_availability_paid_orders
    time := q.cached_availability_time }

/-- Source `Quota.cache_is_hot`: the stored timestamp is set and less than
120 seconds old.  (A Python datetime is always truthy, hence the plain
`isSome` test; the subtraction may be negative for a future timestamp, which
also counts as hot, as in the source.) -/
def cache_is_hot (q : QuotaState) (now_dt : Int) : Bool :=
  match q.cached_availability_time with
  | none => false
  | some t => now_dt - t < 120

/-- Result of the pure calculator `Quota._availability`: the verdict, the
mutated in-memory instance (the source assigns
`self.cached_availability_paid_orders = paid_orders` on the finite-size
path), and the demand queries issued, in order. -/
structure ComputeResult where
  verdict : Verdict
  inst : QuotaState
  queries : List DemandQuery
deriving DecidableEq, Repr

/-- Source `Quota._availability` (items.py lines 1038-1067): subtract the
demand counts from the capacity in the fixed order paid, pending, blocking
vouchers, cart, waiting list (the last one only when `count_waitinglist`),
returning at the first step whose running remainder is at or below zero.
`now_dt` is only forwarded to the count queries in the source, so it does
not influence the result here. -/
def Quota._availability (q : QuotaState) (d : Demand) (now_dt : Int)
    (count_waitinglist : Bool) : ComputeResult :=
  match q.size with
  | none => { verdict := (AVAILABILITY_OK, none), inst := q, queries := [] }
  | some size =>
    let paid_orders := d.paid
    let q1 := { q with cached_availability_paid_orders := some paid_orders }
    let s1 : Int := (size : Int) - paid_orders
    if s1 ≤ 0 then
      { verdict := (AVAILABILITY_GONE, some 0), inst := q1,
        queries := [.paid] }
    else
      let s2 := s1 - d.pending
      if s2 ≤ 0 then
        { verdict := (AVAILABILITY_ORDERED, some 0), inst := q1,
          queries := [.paid, .pending] }
      else
        let s3 := s2 - d.blocking
        if s3 ≤ 0 then
          { verdict := (AVAILABILITY_RESERVED, some 0), inst := q1,
            queries := [.paid, .pending, .blocking] }
        else
          let s4 := s3 - d.cart
          if s4 ≤ 0 then
            { verdict := (AVAILABILITY_RESERVED, some 0), inst := q1,
              queries := [.paid, .pending, .blocking, .cart] }
          else
            if count_waitinglist then
              let s5 := s4 - d.waitlist
              if s5 ≤ 0 then
                { verdict := (AVAILABILITY_RESERVED, some 0), inst := q1,
                  queries := [.paid, .pending, .blocking, .cart, .waitlist] }
              else
                { verdict := (AVAILABILITY_OK, some s5), inst := q1,
                  queries := [.paid, .pending, .blocking, .cart, .waitlist] }
            else
              { verdict := (AVAILABILITY_OK, some s4), inst := q1,
                queries := [.paid, .pending, .blocking, .cart] }

/-- The call-scoped memo dict (`_cache` parameter): quota-pk keyed verdict
entries plus the special `_count_waitinglist` key (`flag`; `none` when the
key is absent). -/
structure CallCache where
  entries : List (Nat × Verdict)
  flag : Option Bool
deriving DecidableEq, Repr

/-- An empty memo dict (the state after `_cache.clear()`). -/
def CallCache.empty : CallCache := { entries := [], flag := none }

/-- Python truthiness of the memo dict (`if _cache`): nonempty. -/
def CallCache.truthy (c : CallCache) : Bool :=
  !c.entries.isEmpty || c.flag.isSome

/-- Read of the `_count_waitinglist` key with default `True`
(`_cache.get(..., True)` in the source). -/
def CallCache.getFlag (c : CallCache) : Bool := c.flag.getD true

/-- Lookup of a quota pk in the memo dict (`self.pk in _cache` /
`_cache[self.pk]`). -/
def CallCache.find (c : CallCache) (pk : Nat) : Option Verdict :=
  (c.entries.find? (fun e => e.1 == pk)).map (fun e => e.2)

/-- Dict assignment `_cache[pk] = v`: replace an existing entry, else
append. -/
def CallCache.insert (c : CallCache) (pk : Nat) (v : Verdict) : CallCache :=
  if (c.entries.find? (fun e => e.1 == pk)).isSome then
    { c with entries := c.entries.map (fun e => if e.1 == pk then (pk, v) else e) }
  else
    { c with entries := c.entries ++ [(pk, v)] }

/-- The memo dict after the flag-mismatch clearing step of
`Quota.availability` (source line 1010): a truthy dict whose stored
`_count_waitinglist` flag differs from the requested one is cleared. -/
def effectiveCC (cc : Option CallCache) (count_waitinglist : Bool) :
    Option CallCache :=
  cc.map (fun c =>
    if c.truthy && !(count_waitinglist == c.getFlag) then CallCache.empty else c)

/-- Memo lookup as performed by `Quota.availability`: clear on flag
mismatch, then look up the quota pk. -/
def memoHit (cc : Option CallCache) (count_waitinglist : Bool) (pk : Nat) :
    Option Verdict :=
  (effectiveCC cc count_waitinglist).bind (fun c => c.find pk)

/-- Full outcome of one `Quota.availability` call: the returned verdict, the
in-memory instance afterwards, the persisted cached-verdict columns
afterwards, the memo dict afterwards, the demand queries issued, whether a
fresh `_availability` computation ran, and whether the event-wide
`item_quota_cache` key was deleted. -/
structure AvailOutcome where
  verdict : Verdict
  inst : QuotaState
  db : CachedFields
  cc : Option CallCache
  queries : List DemandQuery
  fresh : Bool
  itemQuotaCacheDeleted : Bool
deriving DecidableEq, Repr

/-- Source `Quota.availability` (items.py lines 997-1036).  `nowReal` is the
wall-clock time used by the argument-free `self.cache_is_hot()` call on the
hot path (line 1007); `now_dt_arg` is the optional `now_dt` parameter, which
defaults to the wall clock (line 1015) and governs the persist decision.
The input `q` doubles as the database image of the row, as for a freshly
loaded instance. -/
def Quota.availability (q : QuotaState) (d : Demand) (nowReal : Int)
    (now_dt_arg : Option Int) (count_waitinglist : Bool)
    (cc : Option CallCache) (allow_cache : Bool) : AvailOutcome :=
  if allow_cache && cache_is_hot q nowReal && count_waitinglist then
    -- Hot path: return the stored pair unchanged.  The stored state column
    -- is read back as persisted; `getD 0` renders the untyped Python read,
    -- and every write path stores the state together with the timestamp.
    { verdict := (q.cached_availability_state.getD 0, q.cached_availability_number)
      inst := q, db := dbOf q, cc := cc, queries := []
      fresh := false, itemQuotaCacheDeleted := false }
  else
    match memoHit cc count_waitinglist q.pk with
    | some v =>
      { verdict := v, inst := q, db := dbOf q
        cc := effectiveCC cc count_waitinglist, queries := []
        fresh := false, itemQuotaCacheDeleted := false }
    | none =>
      let now_dt := now_dt_arg.getD nowReal
      let r := Quota._availability q d now_dt count_waitinglist
      let persist := count_waitinglist && !cache_is_hot r.inst now_dt
      let inst2 :=
        if persist then
          let i := { r.inst with
            cached_availability_state := some r.verdict.1
            cached_availability_number := r.verdict.2
            cached_availability_time := some now_dt }
          -- `if self.size is None: self.cached_availability_paid_orders =
          -- self.count_paid_orders()`
          if q.size.isNone then
            { i with cached_availability_paid_orders := some d.paid }
          else i
        else r.inst
      { verdict := r.verdict
        inst := inst2
        db := if persist then dbOf inst2 else dbOf q
        cc := (effectiveCC cc count_waitinglist).map (fun c =>
          { c.insert q.pk r.verdict with flag := some count_waitinglist })
        queries := r.queries ++
          (if persist && q.size.isNone then [.paid] else [])
        fresh := true
        itemQuotaCacheDeleted := true }

/-- Source `Quota.rebuild_cache` (items.py lines 987-991): clear the stored
timestamp, number and state on the instance, then call `availability` with
default arguments (`count_waitinglist=True`, no memo dict,
`allow_cache=False`). -/
def Quota.rebuild_cache (q : QuotaState) (d : Demand) (nowReal : Int)
    (now_dt_arg : Option Int) : AvailOutcome :=
  Quota.availability
    { q with
      cached_availability_time := none
      cached_availability_number := none
      cached_availability_state := none }
    d nowReal now_dt_arg true none false

/-- Python `sys.maxsize` on a 64-bit platform, the sentinel the source uses
for unlimited availability in `check_quotas`. -/
def sys_maxsize : Int := 9223372036854775807

/-- The sort key of the source combine step,
`lambda s: (s[0], s[1] if s[1] is not None else sys.maxsize)`. -/
def availKey (v : Verdict) : Nat × Int :=
  (v.1, match v.2 with
        | none => sys_maxsize
        | some n => n)

/-- Strict lexicographic comparison of sort keys, as Python tuple
comparison performs it. -/
def keyLt (a b : Nat × Int) : Bool :=
  a.1 < b.1 || (a.1 == b.1 && a.2 < b.2)

/-- Fold computing the first key-minimal element of `x :: xs`, the behaviour
of Python `min` with a key function. -/
def minFold (x : Verdict) (xs : List Verdict) : Verdict :=
  xs.foldl (fun acc y => if keyLt (availKey y) (availKey acc) then y else acc) x

/-- Minimum of a verdict list under `availKey` (`none` on the empty list,
where Python `min` would raise). -/
def minByKey : List Verdict → Option Verdict
  | [] => none
  | x :: xs => some (minFold x xs)

/-- Evaluation of `q.availability(count_waitinglist=..., _cache=_cache)` for
each quota of the list in turn, threading the memo dict through the calls as
the source list comprehension does; returns the verdict list and the final
memo dict. -/
def evalQuotas (l : List (QuotaState × Demand)) (nowReal : Int)
    (count_waitinglist : Bool) (cc : Option CallCache) :
    List Verdict × Option CallCache :=
  match l with
  | [] => ([], cc)
  | qd :: rest =>
    let r := Quota.availability qd.1 qd.2 nowReal none count_waitinglist cc false
    let rec_ := evalQuotas rest nowReal count_waitinglist r.cc
    (r.verdict :: rec_.1, rec_.2)

/-- The two exceptions `check_quotas` can raise: the
`TypeError('You need to supply a subevent.')` scope error, and the
`ValueError` raised on an item that has variations. -/
inductive CheckErr where
  | invalidScope
  | variationsError
deriving DecidableEq, Repr

/-- Removal of the ignored quotas (`if ignored_quotas: check_quotas -=
set(ignored_quotas)`), by primary key. -/
def removeIgnored (quotas : List (QuotaState × Demand)) (ignored : List Nat) :
    List (QuotaState × Demand) :=
  if ignored.isEmpty then quotas
  else quotas.filter (fun qd => !(ignored.contains qd.1.pk))

/-- Source `Item.check_quotas` (items.py lines 374-403).  `quotas` stands
for the already-resolved quota set of the item (filtered by subevent when
one is supplied); `subeventSupplied` and `hasSubevents` render the
`not subevent and self.event.has_subevents` test, and `hasVariations` the
`self.has_variations` test.  The order of the four steps follows the
source: scope check, ignored removal, empty-set early return, variations
check, then the key-minimal combined verdict. -/
def Item.check_quotas (quotas : List (QuotaState × Demand))
    (hasVariations : Bool) (subeventSupplied : Bool) (hasSubevents : Bool)
    (ignored : List Nat) (nowReal : Int) (count_waitinglist : Bool)
    (cc : Option CallCache) : Except CheckErr Verdict :=
  if !subeventSupplied && hasSubevents then .error .invalidScope
  else
    let remaining := removeIgnored quotas ignored
    if remaining.isEmpty then .ok (AVAILABILITY_OK, some sys_maxsize)
    else if hasVariations then .error .variationsError
    else
      match minByKey (evalQuotas remaining nowReal count_waitinglist cc).1 with
      | some v => .ok v
      | none => .ok (AVAILABILITY_OK, some sys_maxsize) -- unreachable: list nonempty

/-- Source `ItemVariation.check_quotas` (items.py lines 510-534): same
combine, but the ignored removal precedes the scope check and there is no
variations check. -/
def ItemVariation.check_quotas (quotas : List (QuotaState × Demand))
    (subeventSupplied : Bool) (hasSubevents : Bool) (ignored : List Nat)
    (nowReal : Int) (count_waitinglist : Bool) (cc : Option CallCache) :
    Except CheckErr Verdict :=
  let remaining := removeIgnored quotas ignored
  if !subeventSupplied && hasSubevents then .error .invalidScope
  else if remaining.isEmpty then .ok (AVAILABILITY_OK, some sys_maxsize)
  else
    match minByKey (evalQuotas remaining nowReal count_waitinglist cc).1 with
    | some v => .ok v
    | none => .ok (AVAILABILITY_OK, some sys_maxsize) -- unreachable: list nonempty

/-! Order notions used to state the verdict-combining property. -/

/-- Reflexive order on sort keys, Python tuple less-or-equal. -/
def keyLe (a b : Nat × Int) : Prop :=
  a.1 < b.1 ∨ (a.1 = b.1 ∧ a.2 ≤ b.2)

/-- Order on remaining counts in the sense of the spec: `none` (unlimited)
is larger than every finite count. -/
def remLe : Option Int → Option Int → Prop
  | _, none => True
  | none, some _ => False
  | some a, some b => a ≤ b

/-- The combined-verdict order of the spec: strictly less available state
first, then smaller remaining count, unlimited counting as largest. -/
def specLe (v u : Verdict) : Prop :=
  v.1 < u.1 ∨ (v.1 = u.1 ∧ remLe v.2 u.2)

/-- A finite remaining count below `sys.maxsize` (always true of real
verdicts, whose counts are bounded by the 32-bit capacity column); under
this bound the sort key order and the spec order agree. -/
def remBounded (v : Verdict) : Bool :=
  match v.2 with
  | none => true
  | some n => n < sys_maxsize

/-! Helper lemmas. -/

lemma keyLe_refl (a : Nat × Int) : keyLe a a := by unfold keyLe; omega

lemma keyLe_trans {a b c : Nat × Int} (h1 : keyLe a b) (h2 : keyLe b c) :
    keyLe a c := by
  unfold keyLe at *; omega

lemma keyLt_true {a b : Nat × Int} (h : keyLt a b = true) : keyLe a b := by
  simp [keyLt] at h; unfold keyLe; omega

lemma keyLt_false {a b : Nat × Int} (h : keyLt a b = false) : keyLe b a := by
  simp [keyLt] at h; unfold keyLe; omega

lemma minFold_mem_le (xs : List Verdict) : ∀ x : Verdict,
    minFold x xs ∈ x :: xs ∧
      ∀ u ∈ x :: xs, keyLe (availKey (minFold x xs)) (availKey u) := by
  induction xs with
  | nil =>
    intro x
    constructor
    · exact List.mem_cons_self x []
    · intro u hu
      rcases List.mem_cons.mp hu with h | h
      · subst h; exact keyLe_refl _
      · exact absurd h (List.not_mem_nil u)
  | cons y ys ih =>
    intro x
    have hfold : minFold x (y :: ys)
        = minFold (if keyLt (availKey y) (availKey x) then y else x) ys := rfl
    by_cases hk : keyLt (availKey y) (availKey x) = true
    · rw [hfold, if_pos hk]
      obtain ⟨ihmem, ihle⟩ := ih y
      have hyx : keyLe (availKey y) (availKey x) := keyLt_true hk
      have hmy : keyLe (availKey (minFold y ys)) (availKey y) :=
        ihle y (List.mem_cons_self _ _)
      constructor
      · exact List.mem_cons_of_mem _ ihmem
      · intro u hu
        rcases List.mem_cons.mp hu with h | h
        · subst h; exact keyLe_trans hmy hyx
        · exact ihle u h
    · rw [hfold, if_neg hk]
      obtain ⟨ihmem, ihle⟩ := ih x
      have hxy : keyLe (availKey x) (availKey y) :=
        keyLt_false (Bool.eq_false_iff.mpr hk)
      have hmx : keyLe (availKey (minFold x ys)) (availKey x) :=
        ihle x (List.mem_cons_self _ _)
      constructor
      · rcases List.mem_cons.mp ihmem with h | h
        · rw [h]; exact List.mem_cons_self _ _
        · exact List.mem_cons_of_mem _ (List.mem_cons_of_mem _ h)
      · intro u hu
        rcases List.mem_cons.mp hu with h | h
        · subst h; exact hmx
        · rcases List.mem_cons.mp h with h2 | h2
          · subst h2; exact keyLe_trans hmx hxy
          · exact ihle u (List.mem_cons_of_mem _ h2)

lemma evalQuotas_length (l : List (QuotaState × Demand)) (nr : Int) (cw : Bool)
    (cc : Option CallCache) : (evalQuotas l nr cw cc).1.length = l.length := by
  induction l generalizing cc with
  | nil => rfl
  | cons qd rest ih => simp [evalQuotas, ih]

lemma keyLe_specLe {v u : Verdict}
    (hv : remBounded v = true) (hu : remBounded u = true)
    (h : keyLe (availKey v) (availKey u)) : specLe v u := by
  rcases v with ⟨vs, vn⟩
  rcases u with ⟨us, un⟩
  cases vn <;> cases un <;>
    simp_all [keyLe, availKey, specLe, remLe, remBounded] <;> omega

lemma _availability_inst_none {q : QuotaState} (d : Demand) (t : Int) (cw : Bool)
    (hq : q.size = none) : (Quota._availability q d t cw).inst = q := by
  simp [Quota._availability, hq]

lemma _availability_inst_some {q : QuotaState} {C : Nat} (d : Demand) (t : Int)
    (cw : Bool) (hq : q.size = some C) :
    (Quota._availability q d t cw).inst
      = { q with cached_availability_paid_orders := some d.paid } := by
  simp only [Quota._availability, hq]
  split_ifs <;> rfl

lemma _availability_inst_time (q : QuotaState) (d : Demand) (t : Int) (cw : Bool) :
    (Quota._availability q d t cw).inst.cached_availability_time
      = q.cached_availability_time := by
  cases hq : q.size with
  | none => rw [_availability_inst_none d t cw hq]
  | some C => rw [_availability_inst_some d t cw hq]

lemma cache_is_hot_availability_inst (q : QuotaState) (d : Demand) (t t' : Int)
    (cw : Bool) :
    cache_is_hot (Quota._availability q d t' cw).inst t = cache_is_hot q t := by
  unfold cache_is_hot
  rw [_availability_inst_time]

lemma memoHit_none (cw : Bool) (pk : Nat) : memoHit none cw pk = none := rfl

lemma availability_of_hot (q : QuotaState) (d : Demand) (nr : Int)
    (na : Option Int) (cw : Bool) (cc : Option CallCache) (ac : Bool)
    (hhot : (ac && cache_is_hot q nr && cw) = true) :
    Quota.availability q d nr na cw cc ac
      = { verdict := (q.cached_availability_state.getD 0, q.cached_availability_number)
          inst := q, db := dbOf q, cc := cc, queries := []
          fresh := false, itemQuotaCacheDeleted := false } := by
  simp [Quota.availability, hhot]

lemma availability_of_memo (q : QuotaState) (d : Demand) (nr : Int)
    (na : Option Int) (cw : Bool) (cc : Option CallCache) (ac : Bool) (v : Verdict)
    (hhot : ¬(ac && cache_is_hot q nr && cw) = true)
    (hm : memoHit cc cw q.pk = some v) :
    Quota.availability q d nr na cw cc ac
      = { verdict := v, inst := q, db := dbOf q, cc := effectiveCC cc cw
          queries := [], fresh := false, itemQuotaCacheDeleted := false } := by
  simp only [Quota.availability, if_neg hhot, hm]

lemma availability_fresh_of_compute (q : QuotaState) (d : Demand) (nr : Int)
    (na : Option Int) (cw : Bool) (cc : Option CallCache) (ac : Bool)
    (hhot : ¬(ac && cache_is_hot q nr && cw) = true)
    (hm : memoHit cc cw q.pk = none) :
    (Quota.availability q d nr na cw cc ac).fresh = true := by
  simp only [Quota.availability, if_neg hhot, hm]

lemma availability_verdict_of_compute (q : QuotaState) (d : Demand) (nr : Int)
    (na : Option Int) (cw : Bool) (cc : Option CallCache) (ac : Bool)
    (hhot : ¬(ac && cache_is_hot q nr && cw) = true)
    (hm : memoHit cc cw q.pk = none) :
    (Quota.availability q d nr na cw cc ac).verdict
      = (Quota._availability q d (na.getD nr) cw).verdict := by
  simp only [Quota.availability, if_neg hhot, hm]

lemma availability_queries_of_compute (q : QuotaState) (d : Demand) (nr : Int)
    (na : Option Int) (cw : Bool) (cc : Option CallCache) (ac : Bool)
    (hhot : ¬(ac && cache_is_hot q nr && cw) = true)
    (hm : memoHit cc cw q.pk = none) :
    (Quota.availability q d nr na cw cc ac).queries
      = (Quota._availability q d (na.getD nr) cw).queries ++
        (if (cw && !cache_is_hot q (na.getD nr)) && q.size.isNone
         then [DemandQuery.paid] else []) := by
  simp only [Quota.availability, if_neg hhot, hm, cache_is_hot_availability_inst]

lemma availability_db_of_compute (q : QuotaState) (d : Demand) (nr : Int)
    (na : Option Int) (cw : Bool) (cc : Option CallCache) (ac : Bool)
    (hhot : ¬(ac && cache_is_hot q nr && cw) = true)
    (hm : memoHit cc cw q.pk = none)
    (hp : (cw && !cache_is_hot q (na.getD nr)) = true) :
    (Quota.availability q d nr na cw cc ac).db
      = { state := some (Quota.availability q d nr na cw cc ac).verdict.1
          number := (Quota.availability q d nr na cw cc ac).verdict.2
          paid := some d.paid
          time := some (na.getD nr) } := by
  rw [availability_verdict_of_compute q d nr na cw cc ac hhot hm]
  simp only [Quota.availability, if_neg hhot, hm, cache_is_hot_availability_inst, hp]
  cases hq : q.size with
  | none =>
    simp [dbOf, hq, _availability_inst_none d (na.getD nr) cw hq]
  | some C =>
    simp [dbOf, hq, _availability_inst_some d (na.getD nr) cw hq]

lemma availability_db_of_no_persist (q : QuotaState) (d : Demand) (nr : Int)
    (na : Option Int) (cw : Bool) (cc : Option CallCache) (ac : Bool)
    (hhot : ¬(ac && cache_is_hot q nr && cw) = true)
    (hm : memoHit cc cw q.pk = none)
    (hp : (cw && !cache_is_hot q (na.getD nr)) = false) :
    (Quota.availability q d nr na cw cc ac).db = dbOf q := by
  simp only [Quota.availability, if_neg hhot, hm, cache_is_hot_availability_inst, hp]
  simp

lemma availability_inst_time_of_persist (q : QuotaState) (d : Demand) (nr : Int)
    (na : Option Int) (cw : Bool) (cc : Option CallCache) (ac : Bool)
    (hhot : ¬(ac && cache_is_hot q nr && cw) = true)
    (hm : memoHit cc cw q.pk = none)
    (hp : (cw && !cache_is_hot q (na.getD nr)) = true) :
    (Quota.availability q d nr na cw cc ac).inst.cached_availability_time
      = some (na.getD nr) := by
  simp only [Quota.availability, if_neg hhot, hm, cache_is_hot_availability_inst, hp]
  cases hq : q.size.isNone <;> simp [hq]

lemma availability_inst_state_of_persist (q : QuotaState) (d : Demand) (nr : Int)
    (na : Option Int) (cw : Bool) (cc : Option CallCache) (ac : Bool)
    (hhot : ¬(ac && cache_is_hot q nr && cw) = true)
    (hm : memoHit cc cw q.pk = none)
    (hp : (cw && !cache_is_hot q (na.getD nr)) = true) :
    (Quota.availability q d nr na cw cc ac).inst.cached_availability_state
      = some (Quota.availability q d nr na cw cc ac).verdict.1 := by
  rw [availability_verdict_of_compute q d nr na cw cc ac hhot hm]
  simp only [Quota.availability, if_neg hhot, hm, cache_is_hot_availability_inst, hp]
  cases hq : q.size.isNone <;> simp [hq]

lemma availability_inst_number_of_persist (q : QuotaState) (d : Demand) (nr : Int)
    (na : Option Int) (cw : Bool) (cc : Option CallCache) (ac : Bool)
    (hhot : ¬(ac && cache_is_hot q nr && cw) = true)
    (hm : memoHit cc cw q.pk = none)
    (hp : (cw && !cache_is_hot q (na.getD nr)) = true) :
    (Quota.availability q d nr na cw cc ac).inst.cached_availability_number
      = (Quota.availability q d nr na cw cc ac).verdict.2 := by
  rw [availability_verdict_of_compute q d nr na cw cc ac hhot hm]
  simp only [Quota.availability, if_neg hhot, hm, cache_is_hot_availability_inst, hp]
  cases hq : q.size.isNone <;> simp [hq]

/-! Claim theorems. -/

/-- C1: for a finite capacity `C` and demand counts `p, q, b, c, w`, the
calculator subtracts demand in the fixed order paid, pending, blocking
vouchers, cart holds, waitlist (the last only when the waitlist flag is
enabled), short-circuiting the first time the running remainder reaches
zero or below: if `p ≥ C` the verdict is `(GONE, 0)`; if `p < C ≤ p+q` it
is `(ORDERED, 0)`; if `p+q < C ≤ p+q+b` it is `(RESERVED, 0)`; analogously
for `c` and then `w`; otherwise it is `(OK, C-p-q-b-c-w)` with a positive
remainder (`C-p-q-b-c` when the waitlist flag is disabled). -/
theorem quota_availability_priority_order (q : QuotaState) (C : Nat) (d : Demand)
    (t : Int) (cw : Bool) (hq : q.size = some C) :
    (C ≤ d.paid →
      (Quota._availability q d t cw).verdict = (AVAILABILITY_GONE, some 0)) ∧
    (d.paid < C → C ≤ d.paid + d.pending →
      (Quota._availability q d t cw).verdict = (AVAILABILITY_ORDERED, some 0)) ∧
    (d.paid + d.pending < C → C ≤ d.paid + d.pending + d.blocking →
      (Quota._availability q d t cw).verdict = (AVAILABILITY_RESERVED, some 0)) ∧
    (d.paid + d.pending + d.blocking < C →
      C ≤ d.paid + d.pending + d.blocking + d.cart →
      (Quota._availability q d t cw).verdict = (AVAILABILITY_RESERVED, some 0)) ∧
    (cw = true → d.paid + d.pending + d.blocking + d.cart < C →
      C ≤ d.paid + d.pending + d.blocking + d.cart + d.waitlist →
      (Quota._availability q d t cw).verdict = (AVAILABILITY_RESERVED, some 0)) ∧
    (cw = true → d.paid + d.pending + d.blocking + d.cart + d.waitlist < C →
      (Quota._availability q d t cw).verdict =
        (AVAILABILITY_OK,
          some ((C : Int) - d.paid - d.pending - d.blocking - d.cart - d.waitlist)) ∧
      (0 : Int) < (C : Int) - d.paid - d.pending - d.blocking - d.cart - d.waitlist) ∧
    (cw = false → d.paid + d.pending + d.blocking + d.cart < C →
      (Quota._availability q d t cw).verdict =
        (AVAILABILITY_OK,
          some ((C : Int) - d.paid - d.pending - d.blocking - d.cart)) ∧
      (0 : Int) < (C : Int) - d.paid - d.pending - d.blocking - d.cart) := by
  cases cw <;>
    simp only [Quota._availability, hq] <;>
    split_ifs <;>
    refine ⟨?_, ?_, ?_, ?_, ?_, ?_, ?_⟩ <;> intros <;>
    first
      | rfl
      | exact ⟨rfl, by omega⟩
      | omega
      | (exfalso; omega)
      | simp_all

/-- Witness for C1: a quota of capacity 5 with 7 paid orders is gone; a
quota of capacity 100 with 30 paid orders and 10 cart holds, waitlist
disabled, has 60 left. -/
theorem quota_availability_priority_order_witness :
    (Quota._availability ⟨1, some 5, none, none, none, none⟩ ⟨7, 0, 0, 0, 0⟩ 0
        true).verdict = (AVAILABILITY_GONE, some 0) ∧
    (Quota._availability ⟨1, some 100, none, none, none, none⟩ ⟨30, 0, 0, 10, 0⟩ 0
        false).verdict = (AVAILABILITY_OK, some 60) :=
  ⟨(quota_availability_priority_order ⟨1, some 5, none, none, none, none⟩ 5
      ⟨7, 0, 0, 0, 0⟩ 0 true rfl).1 (by decide),
   ((quota_availability_priority_order ⟨1, some 100, none, none, none, none⟩ 100
      ⟨30, 0, 0, 10, 0⟩ 0 false rfl).2.2.2.2.2.2 rfl (by decide)).1⟩

/-- C2 (amended): for a quota of unlimited capacity (`size = none`), the
calculator returns `(OK, unlimited)` and issues zero demand queries
regardless of the demand counts; a cache-bypassing `availability` call
(no memo dict, `allow_cache=False`) likewise returns `(OK, unlimited)`
regardless of the demand counts, but it issues exactly one demand query,
the confirmed-purchase count persisted for informational display, whenever
it persists the verdict (waitlist-inclusive read with a cache that is not
hot), and zero otherwise. -/
theorem unlimited_quota_availability (pk : Nat) (cs : Option Nat) (cn : Option Int)
    (cp : Option Nat) (ct : Option Int) (d : Demand) (nr : Int) (na : Option Int)
    (cw : Bool) :
    ((Quota._availability ⟨pk, none, cs, cn, cp, ct⟩ d (na.getD nr) cw).verdict
        = (AVAILABILITY_OK, none) ∧
     (Quota._availability ⟨pk, none, cs, cn, cp, ct⟩ d (na.getD nr) cw).queries
        = []) ∧
    (Quota.availability ⟨pk, none, cs, cn, cp, ct⟩ d nr na cw none false).verdict
        = (AVAILABILITY_OK, none) ∧
    (Quota.availability ⟨pk, none, cs, cn, cp, ct⟩ d nr na cw none false).queries
        = (if (cw && !cache_is_hot ⟨pk, none, cs, cn, cp, ct⟩ (na.getD nr))
           then [DemandQuery.paid] else []) := by
  refine ⟨?_, ?_, ?_⟩
  · exact ⟨rfl, rfl⟩
  · rw [availability_verdict_of_compute _ _ _ _ _ _ _ (by simp) (memoHit_none _ _)]
    exact rfl
  · rw [availability_queries_of_compute _ _ _ _ _ _ _ (by simp) (memoHit_none _ _)]
    simp [Quota._availability]

/-- Counterexample for C2 as stated: an unlimited quota, read fresh with
waitlist-inclusive semantics and a cold cache, issues one demand-count
query (the confirmed-purchase count persisted with the verdict), not
zero. -/
theorem unlimited_quota_availability_cex :
    (Quota.availability ⟨1, none, none, none, none, none⟩ ⟨3, 0, 0, 0, 0⟩ 0 none
        true none false).queries = [DemandQuery.paid] ∧
    (Quota.availability ⟨1, none, none, none, none, none⟩ ⟨3, 0, 0, 0, 0⟩ 0 none
        true none false).queries ≠ [] :=
  ⟨by decide, by decide⟩

/-- C3: availability states are ordered by severity
`GONE < ORDERED < RESERVED < OK`; an item or variation whose quota set is
empty after removing ignored quotas yields `(OK, sys.maxsize)`, the
unlimited sentinel of `check_quotas`; and on a nonempty quota set the
combined verdict is a member of the per-quota verdict list that is least
in the order: strictly less available state first, then smaller remaining
count with unlimited (`none`) counting as larger than any finite count
(below the `sys.maxsize` sentinel). -/
theorem quota_combine_least_available :
    (AVAILABILITY_GONE < AVAILABILITY_ORDERED ∧
     AVAILABILITY_ORDERED < AVAILABILITY_RESERVED ∧
     AVAILABILITY_RESERVED < AVAILABILITY_OK) ∧
    (∀ (quotas : List (QuotaState × Demand)) (hv hS : Bool) (ignored : List Nat)
        (nowReal : Int) (cw : Bool) (cc : Option CallCache),
      removeIgnored quotas ignored = [] →
        Item.check_quotas quotas hv true hS ignored nowReal cw cc
          = .ok (AVAILABILITY_OK, some sys_maxsize) ∧
        ItemVariation.check_quotas quotas true hS ignored nowReal cw cc
          = .ok (AVAILABILITY_OK, some sys_maxsize)) ∧
    (∀ (quotas : List (QuotaState × Demand)) (hS : Bool) (ignored : List Nat)
        (nowReal : Int) (cw : Bool) (cc : Option CallCache),
      removeIgnored quotas ignored ≠ [] →
      (∀ u ∈ (evalQuotas (removeIgnored quotas ignored) nowReal cw cc).1,
        remBounded u = true) →
      ∃ v,
        Item.check_quotas quotas false true hS ignored nowReal cw cc = .ok v ∧
        ItemVariation.check_quotas quotas true hS ignored nowReal cw cc = .ok v ∧
        v ∈ (evalQuotas (removeIgnored quotas ignored) nowReal cw cc).1 ∧
        ∀ u ∈ (evalQuotas (removeIgnored quotas ignored) nowReal cw cc).1,
          specLe v u) := by
  refine ⟨by decide, ?_, ?_⟩
  · intro quotas hv hS ignored nowReal cw cc h
    constructor
    · simp [Item.check_quotas, h]
    · simp [ItemVariation.check_quotas, h]
  · intro quotas hS ignored nowReal cw cc h hbound
    obtain ⟨w, ws, hl⟩ :
        ∃ w ws, (evalQuotas (removeIgnored quotas ignored) nowReal cw cc).1
          = w :: ws := by
      have hlen := evalQuotas_length (removeIgnored quotas ignored) nowReal cw cc
      cases hvl : (evalQuotas (removeIgnored quotas ignored) nowReal cw cc).1 with
      | nil =>
        rw [hvl] at hlen
        exact absurd (List.length_eq_zero.mp hlen.symm) h
      | cons w ws => exact ⟨w, ws, rfl⟩
    refine ⟨minFold w ws, ?_, ?_, ?_, ?_⟩
    · rw [Item.check_quotas]
      have hsc : (!true && hS) = false := by simp
      rw [hsc]
      simp only [Bool.false_eq_true, if_false]
      have hne : (removeIgnored quotas ignored).isEmpty = false := by
        cases hrem : removeIgnored quotas ignored with
        | nil => exact absurd hrem h
        | cons a l => simp
      simp only [hne, Bool.false_eq_true, if_false, hl, minByKey]
    · rw [ItemVariation.check_quotas]
      have hsc : (!true && hS) = false := by simp
      rw [hsc]
      simp only [Bool.false_eq_true, if_false]
      have hne : (removeIgnored quotas ignored).isEmpty = false := by
        cases hrem : removeIgnored quotas ignored with
        | nil => exact absurd hrem h
        | cons a l => simp
      simp only [hne, Bool.false_eq_true, if_false, hl, minByKey]
    · rw [hl]
      exact (minFold_mem_le ws w).1
    · intro u hu
      have hmem : minFold w ws
          ∈ (evalQuotas (removeIgnored quotas ignored) nowReal cw cc).1 := by
        rw [hl]
        exact (minFold_mem_le ws w).1
      have hle : keyLe (availKey (minFold w ws)) (availKey u) := by
        refine (minFold_mem_le ws w).2 u ?_
        rw [hl] at hu
        exact hu
      exact keyLe_specLe (hbound _ hmem) (hbound _ hu) hle

/-- Witness for C3: combining a quota with verdict `(GONE, 0)` (capacity 5,
7 paid) and a quota with verdict `(OK, 50)` (capacity 60, 10 paid) yields
the least available verdict `(GONE, 0)`. -/
theorem quota_combine_least_available_witness :
    ∃ v,
      Item.check_quotas
          [(⟨1, some 5, none, none, none, none⟩, ⟨7, 0, 0, 0, 0⟩),
           (⟨2, some 60, none, none, none, none⟩, ⟨10, 0, 0, 0, 0⟩)]
          false true false [] 0 true none = .ok v ∧
      ItemVariation.check_quotas
          [(⟨1, some 5, none, none, none, none⟩, ⟨7, 0, 0, 0, 0⟩),
           (⟨2, some 60, none, none, none, none⟩, ⟨10, 0, 0, 0, 0⟩)]
          true false [] 0 true none = .ok v ∧
      v ∈ (evalQuotas
          [(⟨1, some 5, none, none, none, none⟩, ⟨7, 0, 0, 0, 0⟩),
           (⟨2, some 60, none, none, none, none⟩, ⟨10, 0, 0, 0, 0⟩)]
          0 true none).1 ∧
      ∀ u ∈ (evalQuotas
          [(⟨1, some 5, none, none, none, none⟩, ⟨7, 0, 0, 0, 0⟩),
           (⟨2, some 60, none, none, none, none⟩, ⟨10, 0, 0, 0, 0⟩)]
          0 true none).1, specLe v u :=
  quota_combine_least_available.2.2
    [(⟨1, some 5, none, none, none, none⟩, ⟨7, 0, 0, 0, 0⟩),
     (⟨2, some 60, none, none, none, none⟩, ⟨10, 0, 0, 0, 0⟩)]
    false [] 0 true none (by decide) (by decide)

/-- C4 (amended): `availability` returns the stored cached verdict without
recomputation exactly when the caller permits cache use (`allow_cache`),
the stored timestamp is within 120 seconds of the current time, and the
request is waitlist-inclusive; in every other case a fresh computation is
performed unless the caller-supplied call-scoped memo dict (after the
waitlist-flag mismatch clearing) already holds this quota, in which case
the memoized verdict is returned without recomputation. -/
theorem availability_cache_read (q : QuotaState) (d : Demand) (nr : Int)
    (na : Option Int) (cw : Bool) (cc : Option CallCache) (ac : Bool) :
    ((ac && cache_is_hot q nr && cw) = true →
      (Quota.availability q d nr na cw cc ac).fresh = false ∧
      (Quota.availability q d nr na cw cc ac).verdict
        = (q.cached_availability_state.getD 0, q.cached_availability_number) ∧
      (Quota.availability q d nr na cw cc ac).queries = []) ∧
    ((Quota.availability q d nr na cw cc ac).fresh = false ↔
      ((ac && cache_is_hot q nr && cw) = true ∨
        (memoHit cc cw q.pk).isSome = true)) := by
  by_cases hhot : (ac && cache_is_hot q nr && cw) = true
  · rw [availability_of_hot q d nr na cw cc ac hhot]
    exact ⟨fun _ => ⟨rfl, rfl, rfl⟩, by simp [hhot]⟩
  · cases hm : memoHit cc cw q.pk with
    | some v =>
      rw [availability_of_memo q d nr na cw cc ac v hhot hm]
      exact ⟨fun h => absurd h hhot, by simp [hm]⟩
    | none =>
      constructor
      · intro h
        exact absurd h hhot
      · rw [availability_fresh_of_compute q d nr na cw cc ac hhot hm]
        simp [hhot, hm]

/-- Counterexample for C4 as stated: with cache use not permitted
(`allow_cache=False`) but a call-scoped memo dict already holding this
quota, no fresh computation is performed, contradicting the claim that a
fresh computation happens in every case other than the hot-cache read. -/
theorem availability_cache_read_cex :
    (Quota.availability ⟨1, some 5, none, none, none, none⟩ ⟨0, 0, 0, 0, 0⟩ 0 none
        true (some ⟨[(1, (0, some 0))], some true⟩) false).fresh = false ∧
    (false && cache_is_hot ⟨1, some 5, none, none, none, none⟩ 0 && true)
        = false ∧
    (Quota.availability ⟨1, some 5, none, none, none, none⟩ ⟨0, 0, 0, 0, 0⟩ 0 none
        true (some ⟨[(1, (0, some 0))], some true⟩) false).queries = [] :=
  ⟨by decide, by decide, by decide⟩

/-- Witness for C4: a hot, waitlist-inclusive, cache-permitted read returns
the stored verdict `(100, 2)` without computing or querying. -/
theorem availability_cache_read_witness :
    (true && cache_is_hot ⟨1, some 5, some 100, some 2, none, some 0⟩ 10 && true)
        = true ∧
    ((Quota.availability ⟨1, some 5, some 100, some 2, none, some 0⟩
        ⟨0, 0, 0, 0, 0⟩ 10 none true none true).fresh = false ∧
     (Quota.availability ⟨1, some 5, some 100, some 2, none, some 0⟩
        ⟨0, 0, 0, 0, 0⟩ 10 none true none true).verdict = (100, some 2) ∧
     (Quota.availability ⟨1, some 5, some 100, some 2, none, some 0⟩
        ⟨0, 0, 0, 0, 0⟩ 10 none true none true).queries = []) :=
  ⟨by decide,
   (availability_cache_read ⟨1, some 5, some 100, some 2, none, some 0⟩
     ⟨0, 0, 0, 0, 0⟩ 10 none true none true).1 (by decide)⟩

/-- C5: on a fresh computation, the verdict state, remaining count and
timestamp are persisted into the stored cached-verdict columns (together
with the confirmed-purchase count) exactly when the read is
waitlist-inclusive and the stored verdict is not already hot; in every
other case, including all cache-served calls, the persisted columns are
unchanged by the call. -/
theorem availability_persist_frame (q : QuotaState) (d : Demand) (nr : Int)
    (na : Option Int) (cw : Bool) (cc : Option CallCache) (ac : Bool) :
    ((Quota.availability q d nr na cw cc ac).fresh = true → cw = true →
      cache_is_hot q (na.getD nr) = false →
      (Quota.availability q d nr na cw cc ac).db
        = { state := some (Quota.availability q d nr na cw cc ac).verdict.1
            number := (Quota.availability q d nr na cw cc ac).verdict.2
            paid := some d.paid
            time := some (na.getD nr) }) ∧
    ((Quota.availability q d nr na cw cc ac).fresh = true →
      (cw = false ∨ cache_is_hot q (na.getD nr) = true) →
      (Quota.availability q d nr na cw cc ac).db = dbOf q) ∧
    ((Quota.availability q d nr na cw cc ac).fresh = false →
      (Quota.availability q d nr na cw cc ac).db = dbOf q) := by
  by_cases hhot : (ac && cache_is_hot q nr && cw) = true
  · rw [availability_of_hot q d nr na cw cc ac hhot]
    refine ⟨?_, ?_, fun _ => rfl⟩ <;> intro h <;> cases h
  · cases hm : memoHit cc cw q.pk with
    | some v =>
      rw [availability_of_memo q d nr na cw cc ac v hhot hm]
      refine ⟨?_, ?_, fun _ => rfl⟩ <;> intro h <;> cases h
    | none =>
      refine ⟨?_, ?_, ?_⟩
      · intro _ hcw hch
        exact availability_db_of_compute q d nr na cw cc ac hhot hm
          (by rw [hcw, hch]; rfl)
      · intro _ hor
        refine availability_db_of_no_persist q d nr na cw cc ac hhot hm ?_
        rcases hor with h | h
        · rw [h]
          rfl
        · rw [h]
          simp
      · intro h
        rw [availability_fresh_of_compute q d nr na cw cc ac hhot hm] at h
        cases h

/-- Witness for C5: a cold waitlist-inclusive read of a capacity-10 quota
with 3 paid orders persists state, number, paid count and timestamp. -/
theorem availability_persist_frame_witness :
    (Quota.availability ⟨1, some 10, none, none, none, none⟩ ⟨3, 0, 0, 0, 0⟩ 0
        none true none false).fresh = true ∧
    cache_is_hot ⟨1, some 10, none, none, none, none⟩ 0 = false ∧
    (Quota.availability ⟨1, some 10, none, none, none, none⟩ ⟨3, 0, 0, 0, 0⟩ 0
        none true none false).db
      = { state := some (Quota.availability ⟨1, some 10, none, none, none, none⟩
            ⟨3, 0, 0, 0, 0⟩ 0 none true none false).verdict.1
          number := (Quota.availability ⟨1, some 10, none, none, none, none⟩
            ⟨3, 0, 0, 0, 0⟩ 0 none true none false).verdict.2
          paid := some 3
          time := some 0 } :=
  ⟨by decide, by decide,
   (availability_persist_frame ⟨1, some 10, none, none, none, none⟩
     ⟨3, 0, 0, 0, 0⟩ 0 none true none false).1 (by decide) rfl (by decide)⟩

/-- C6: `rebuild_cache` clears the stored verdict state, number and
timestamp and always triggers a fresh computation, whose verdict is that
of the calculator on the cleared instance; and an immediately following
`availability` call with default caching arguments (no memo dict,
`allow_cache=False`) also always computes freshly, never serving a
pre-existing cached value. -/
theorem rebuild_cache_recomputes (q : QuotaState) (d d' : Demand) (nr nr' : Int)
    (na na' : Option Int) (cw' : Bool) :
    (Quota.rebuild_cache q d nr na).fresh = true ∧
    (Quota.rebuild_cache q d nr na).verdict
      = (Quota._availability
          { q with cached_availability_time := none
                   cached_availability_number := none
                   cached_availability_state := none }
          d (na.getD nr) true).verdict ∧
    (Quota.availability (Quota.rebuild_cache q d nr na).inst d' nr' na' cw'
        none false).fresh = true ∧
    (Quota.availability (Quota.rebuild_cache q d nr na).inst d' nr' na' cw'
        none false).verdict
      = (Quota._availability (Quota.rebuild_cache q d nr na).inst d'
          (na'.getD nr') cw').verdict := by
  refine ⟨?_, ?_, ?_, ?_⟩
  · exact availability_fresh_of_compute _ _ _ _ _ _ _ (by simp) (memoHit_none _ _)
  · exact availability_verdict_of_compute _ _ _ _ _ _ _ (by simp) (memoHit_none _ _)
  · exact availability_fresh_of_compute _ _ _ _ _ _ _ (by simp) (memoHit_none _ _)
  · exact availability_verdict_of_compute _ _ _ _ _ _ _ (by simp) (memoHit_none _ _)

/-- C7 (amended): if the first `availability` call finds a cold cache (no
stored timestamp) and computes freshly, then a second waitlist-inclusive
call within 120 seconds that permits cache use (`allow_cache=True`)
returns the identical verdict while issuing no demand queries, so at most
one set of demand queries is issued across the two calls; without
`allow_cache` each call recomputes and reissues its own set of demand
queries. -/
theorem availability_idempotent_window (q : QuotaState) (d : Demand)
    (nr1 nr2 : Int) (ac1 : Bool)
    (hcold : q.cached_availability_time = none) (hwin : nr2 - nr1 < 120) :
    (Quota.availability q d nr1 none true none ac1).fresh = true ∧
    (Quota.availability (Quota.availability q d nr1 none true none ac1).inst
        d nr2 none true none true).verdict
      = (Quota.availability q d nr1 none true none ac1).verdict ∧
    (Quota.availability (Quota.availability q d nr1 none true none ac1).inst
        d nr2 none true none true).queries = [] ∧
    (Quota.availability (Quota.availability q d nr1 none true none ac1).inst
        d nr2 none true none true).fresh = false := by
  have hch1 : cache_is_hot q nr1 = false := by
    unfold cache_is_hot
    rw [hcold]
  have hhot1 : ¬(ac1 && cache_is_hot q nr1 && true) = true := by
    simp [hch1]
  have hp1 : (true && !cache_is_hot q (Option.getD none nr1)) = true := by
    simp [Option.getD, hch1]
  have htime : (Quota.availability q d nr1 none true none
      ac1).inst.cached_availability_time = some nr1 :=
    availability_inst_time_of_persist q d nr1 none true none ac1 hhot1
      (memoHit_none _ _) hp1
  have hstate : (Quota.availability q d nr1 none true none
      ac1).inst.cached_availability_state
      = some (Quota.availability q d nr1 none true none ac1).verdict.1 :=
    availability_inst_state_of_persist q d nr1 none true none ac1 hhot1
      (memoHit_none _ _) hp1
  have hnumber : (Quota.availability q d nr1 none true none
      ac1).inst.cached_availability_number
      = (Quota.availability q d nr1 none true none ac1).verdict.2 :=
    availability_inst_number_of_persist q d nr1 none true none ac1 hhot1
      (memoHit_none _ _) hp1
  have hch2 : cache_is_hot (Quota.availability q d nr1 none true none ac1).inst
      nr2 = true := by
    unfold cache_is_hot
    rw [htime]
    simp [hwin]
  have hhot2 : (true && cache_is_hot
      (Quota.availability q d nr1 none true none ac1).inst nr2 && true) = true := by
    simp [hch2]
  refine ⟨availability_fresh_of_compute _ _ _ _ _ _ _ hhot1 (memoHit_none _ _),
    ?_, ?_, ?_⟩
  · rw [availability_of_hot _ d nr2 none true none true hhot2]
    simp only [hstate, hnumber, Option.getD_some]
  · rw [availability_of_hot _ d nr2 none true none true hhot2]
  · rw [availability_of_hot _ d nr2 none true none true hhot2]

/-- Counterexample for C7 as stated: two availability calls with the
default `allow_cache=False`, five seconds apart with unchanged demand,
each issue a full set of five demand queries, so more than one set is
issued between them (the verdicts do agree). -/
theorem availability_idempotent_cex :
    (Quota.availability ⟨1, some 10, none, none, none, none⟩ ⟨3, 0, 0, 0, 0⟩ 0
        none true none false).queries
      = [DemandQuery.paid, DemandQuery.pending, DemandQuery.blocking,
         DemandQuery.cart, DemandQuery.waitlist] ∧
    (Quota.availability
        (Quota.availability ⟨1, some 10, none, none, none, none⟩ ⟨3, 0, 0, 0, 0⟩
          0 none true none false).inst
        ⟨3, 0, 0, 0, 0⟩ 5 none true none false).queries
      = [DemandQuery.paid, DemandQuery.pending, DemandQuery.blocking,
         DemandQuery.cart, DemandQuery.waitlist] ∧
    (Quota.availability
        (Quota.availability ⟨1, some 10, none, none, none, none⟩ ⟨3, 0, 0, 0, 0⟩
          0 none true none false).inst
        ⟨3, 0, 0, 0, 0⟩ 5 none true none false).verdict
      = (Quota.availability ⟨1, some 10, none, none, none, none⟩ ⟨3, 0, 0, 0, 0⟩
          0 none true none false).verdict :=
  ⟨by decide, by decide, by decide⟩

/-- Witness for C7: a cold capacity-10 quota read at time 0 and again with
cache use at time 5 returns the same verdict and queries nothing on the
second call. -/
theorem availability_idempotent_window_witness :
    (⟨1, some 10, none, none, none, none⟩ : QuotaState).cached_availability_time
        = none ∧
    (5 : Int) - 0 < 120 ∧
    ((Quota.availability ⟨1, some 10, none, none, none, none⟩ ⟨3, 0, 0, 0, 0⟩ 0
        none true none false).fresh = true ∧
     (Quota.availability
        (Quota.availability ⟨1, some 10, none, none, none, none⟩ ⟨3, 0, 0, 0, 0⟩
          0 none true none false).inst
        ⟨3, 0, 0, 0, 0⟩ 5 none true none true).verdict
      = (Quota.availability ⟨1, some 10, none, none, none, none⟩ ⟨3, 0, 0, 0, 0⟩
          0 none true none false).verdict ∧
     (Quota.availability
        (Quota.availability ⟨1, some 10, none, none, none, none⟩ ⟨3, 0, 0, 0, 0⟩
          0 none true none false).inst
        ⟨3, 0, 0, 0, 0⟩ 5 none true none true).queries = [] ∧
     (Quota.availability
        (Quota.availability ⟨1, some 10, none, none, none, none⟩ ⟨3, 0, 0, 0, 0⟩
          0 none true none false).inst
        ⟨3, 0, 0, 0, 0⟩ 5 none true none true).fresh = false) :=
  ⟨rfl, by decide,
   availability_idempotent_window ⟨1, some 10, none, none, none, none⟩
     ⟨3, 0, 0, 0, 0⟩ 0 5 false rfl (by decide)⟩

/-- C8: for a finite capacity and fixed demand counts, computing the
verdict with the waitlist flag disabled never yields a smaller remaining
count than computing it with the flag enabled, and with the flag disabled
the waiting-list count query is never issued. -/
theorem waitlist_flag_monotone (q : QuotaState) (C : Nat) (d : Demand) (t : Int)
    (hq : q.size = some C) :
    (∃ a b : Int,
      (Quota._availability q d t true).verdict.2 = some a ∧
      (Quota._availability q d t false).verdict.2 = some b ∧ a ≤ b) ∧
    DemandQuery.waitlist ∉ (Quota._availability q d t false).queries := by
  simp only [Quota._availability, hq]
  split_ifs <;>
    first
      | contradiction
      | (refine ⟨⟨_, _, rfl, rfl, ?_⟩, by simp⟩; omega)

/-- Witness for C8: capacity 10 with 5 waitlist entries: 10 remain with the
flag off, 5 with it on, and the flag-off run does not query the waiting
list. -/
theorem waitlist_flag_monotone_witness :
    (⟨1, some 10, none, none, none, none⟩ : QuotaState).size = some 10 ∧
    ((∃ a b : Int,
      (Quota._availability ⟨1, some 10, none, none, none, none⟩ ⟨0, 0, 0, 0, 5⟩ 0
          true).verdict.2 = some a ∧
      (Quota._availability ⟨1, some 10, none, none, none, none⟩ ⟨0, 0, 0, 0, 5⟩ 0
          false).verdict.2 = some b ∧ a ≤ b) ∧
    DemandQuery.waitlist ∉
      (Quota._availability ⟨1, some 10, none, none, none, none⟩ ⟨0, 0, 0, 0, 5⟩ 0
          false).queries) :=
  ⟨rfl, waitlist_flag_monotone ⟨1, some 10, none, none, none, none⟩ 10
    ⟨0, 0, 0, 0, 5⟩ 0 rfl⟩

/-- C9: calling `Item.check_quotas` or `ItemVariation.check_quotas` without
a subevent on an entity whose event has subevents (an event series) fails
with the invalid-scope error (`TypeError`), before any verdict is
returned, for every quota set and every other argument. -/
theorem check_quotas_subevent_required (quotas : List (QuotaState × Demand))
    (hv : Bool) (ignored : List Nat) (nowReal : Int) (cw : Bool)
    (cc : Option CallCache) :
    Item.check_quotas quotas hv false true ignored nowReal cw cc
      = .error .invalidScope ∧
    ItemVariation.check_quotas quotas false true ignored nowReal cw cc
      = .error .invalidScope := by
  constructor <;> rfl

/-- C10: when `Item.check_quotas` is called with `has_variations` true but
the quota set is empty after removing ignored quotas, it returns
`(OK, sys.maxsize)` instead of raising the documented `ValueError`,
because the empty-set check precedes the variations check; the
`ValueError` is raised only when a nonempty quota set remains to check. -/
theorem item_check_quotas_empty_before_variations
    (quotas : List (QuotaState × Demand)) (sS hS : Bool) (ignored : List Nat)
    (nowReal : Int) (cw : Bool) (cc : Option CallCache) :
    (removeIgnored quotas ignored = [] →
      Item.check_quotas quotas true true hS ignored nowReal cw cc
        = .ok (AVAILABILITY_OK, some sys_maxsize)) ∧
    (Item.check_quotas quotas true sS hS ignored nowReal cw cc
        = .error .variationsError →
      removeIgnored quotas ignored ≠ []) := by
  constructor
  · intro h
    simp [Item.check_quotas, h]
  · intro h hemp
    rw [Item.check_quotas] at h
    by_cases hsc : (!sS && hS) = true
    · simp [hsc] at h
    · simp [hsc, hemp] at h

/-- Witness for C10: an item with variations whose only quota is ignored
gets `(OK, sys.maxsize)` rather than the `ValueError`. -/
theorem item_check_quotas_empty_before_variations_witness :
    removeIgnored [(⟨1, some 5, none, none, none, none⟩, ⟨0, 0, 0, 0, 0⟩)] [1]
        = [] ∧
    Item.check_quotas [(⟨1, some 5, none, none, none, none⟩, ⟨0, 0, 0, 0, 0⟩)]
        true true false [1] 0 true none
      = .ok (AVAILABILITY_OK, some sys_maxsize) :=
  ⟨by decide,
   (item_check_quotas_empty_before_variations
     [(⟨1, some 5, none, none, none, none⟩, ⟨0, 0, 0, 0, 0⟩)] true false [1] 0
     true none).1 (by decide)⟩

end Pretix
